import Mathlib

/-!
Shallow embedding of the Cloud9 revisions server module
(src/server/cloud9/ext/revisions/revisions.js).

The module keeps a per-path cache of revision-history objects
(RevisionsPlugin.revisions), a save queue (RevisionsPlugin.docQueue), and
talks to the file system through asynchronous callbacks.  We embed the
plugin state as an explicit record, each operation as a pure function from
state to state paired with its callback result, and each file-system call
as an oracle flag selecting whether that call succeeds (every I/O call can
fail independently).  Broadcasts are returned as an explicit list of the
broadcast history objects.

The diff/patch engine and the path resolver (path_utils.js) are external
collaborators per the spec; patches are embedded by their application
behaviour on strings and the resolver by the identity map on logical
paths (it is an injective renaming, so nothing below depends on its
concrete form).
-/

namespace Revisions

/-- A patch is opaque and consumed only through application (the source calls
Diff.patch_apply(patch, text) and keeps component 0, the patched text), so we
embed a patch by its application behaviour on strings. -/
def Patch : Type := String → String

/-- Application of a patch to a text, yielding the patched text. -/
def patch_apply (p : Patch) (s : String) : String := p s

/-- Modelled from the spec: the external Patch Engine operation diff(a,b)
(Diff.patch_make in the source) produces a patch transforming a into b; its
internals are out of scope, so we fix one extensional model.  No theorem
below depends on this choice. -/
def patch_make (a b : String) : Patch := fun s => if s = a then b else s

/-- One revision record, as built in saveRevisionFromMsg and serialized to
disk.  The source stores the patch wrapped in a one-element array and
reconstruction applies element 0 of that array; the model identifies the
patch field with that element.  silentsave and restoring are copied from the
message and may be absent. -/
structure RevisionRecord where
  ts : Nat
  silentsave : Option Bool
  restoring : Option Bool
  patch : Patch
  length : Nat
  contributors : Option (List String)

/-- The per-path revision history object: createEmptyStack gives revisions
empty, originalContent is set on creation, lastContent on push (absent until
then). -/
structure RevObj where
  originalContent : String
  revisions : List RevisionRecord
  lastContent : Option String

/-- The part of the user object the module reads (user.data.email, when the
whole chain is present). -/
structure User where
  email : Option String

/-- An inbound revisions message: path plus the optional fields the save
paths read. -/
structure Message where
  path : String
  content : Option String
  silentsave : Option Bool
  restoring : Option Bool
  contributors : Option (List String)

/-- FILE_SUFFIX from the source: extension of revision files. -/
def FILE_SUFFIX : String := "c9save"

/-- Absolute path of the on-disk revision file for a logical path (the source
computes PathUtils.getAbsolutePath(path) + "." + FILE_SUFFIX; the resolver is
modelled as the identity). -/
def revPath (path : String) : String := path ++ "." ++ FILE_SUFFIX

/-- Errors surfaced through callbacks; the constructors tag the distinct
error sites of the source. -/
inductive RevError where
  | noWorkspace : RevError
  | ioReadRev (path : String) : RevError
  | parseError (path : String) : RevError
  | ioReadOrig (path : String) : RevError
  | ioWriteRev (path : String) : RevError
  | couldNotRetrieve (path : String) : RevError
  | contentUnavailable (path : String) : RevError
  | noPathOrHistory (path : String) : RevError
  | backupMissing (path : String) : RevError
  | writeBackupFailed (path : String) : RevError
deriving DecidableEq, Repr

/-- Outcome oracle for the file-system calls one operation may issue: every
asynchronous Fs call can fail independently, and each flag selects the
outcome of one call site (true = the call succeeds). -/
structure Fio where
  readRevFile : Bool
  parseOk : Bool
  readOrigFile : Bool
  writeRevFile : Bool
  writeBackup : Bool

/-- The all-success oracle. -/
def ioOk : Fio := ⟨true, true, true, true, true⟩

/-- The plugin state: the in-memory cache keyed by logical path, the save
queue, the disk (revision files keyed by their revision-file path, stored in
parsed form since JSON serialization round-trips these records; original
files keyed by logical path), the live-session registry, and whether
ide.workspaceDir is set. -/
structure ServerState where
  revisions : String → Option RevObj
  docQueue : List (Option User × Message)
  disk : String → Option RevObj
  origFiles : String → Option String
  sessions : String → Option String
  workspaceDirOk : Bool

/-- Point update of a string-keyed partial map. -/
def upd {α : Type} (f : String → Option α) (k : String) (v : α) :
    String → Option α :=
  fun p => if p = k then some v else f p

/-- RevisionsPlugin.getRevisions: return the cached object if present;
otherwise, if the on-disk revision file exists, read, parse and cache it;
otherwise read the original file, create the initial history (createEmptyStack
plus originalContent), write it to disk, cache it and return it.  Any failing
I/O step errors the callback and caches nothing. -/
def getRevisions (st : ServerState) (filePath : String) (io : Fio) :
    ServerState × Except RevError RevObj :=
  match st.revisions filePath with
  | some rev => (st, .ok rev)
  | none =>
    if !st.workspaceDirOk then
      (st, .error .noWorkspace)
    else
      match st.disk (revPath filePath) with
      | some data =>
        if !io.readRevFile then (st, .error (.ioReadRev filePath))
        else if !io.parseOk then (st, .error (.parseError filePath))
        else ({ st with revisions := upd st.revisions filePath data }, .ok data)
      | none =>
        match st.origFiles filePath with
        | none => (st, .error (.ioReadOrig filePath))
        | some content =>
          if !io.readOrigFile then (st, .error (.ioReadOrig filePath))
          else
            let revObj : RevObj :=
              { originalContent := content, revisions := [], lastContent := none }
            if !io.writeRevFile then (st, .error (.ioWriteRev filePath))
            else
              ({ st with
                  disk := upd st.disk (revPath filePath) revObj,
                  revisions := upd st.revisions filePath revObj },
               .ok revObj)

/-- Sequential application of the patch of each record, the running content feeding
the next application (the forEach loop of getPreviousRevisionContent). -/
def applyPatches (records : List RevisionRecord) (content : String) : String :=
  records.foldl (fun c r => patch_apply r.patch c) content

/-- The pure content computation of getPreviousRevisionContent on a history
object: apply the patch of every record to originalContent in order, then the
source returns content-or-originalContent (JavaScript disjunction, so the
empty string falls back to originalContent). -/
def reconstructContent (rev : RevObj) : String :=
  let content := applyPatches rev.revisions rev.originalContent
  if content = "" then rev.originalContent else content

/-- RevisionsPlugin.getPreviousRevisionContent: fetch the history via
getRevisions, then reconstruct. -/
def getPreviousRevisionContent (st : ServerState) (path : String) (io : Fio) :
    ServerState × Except RevError String :=
  let r := getRevisions st path io
  match r.2 with
  | .error e => (r.1, .error e)
  | .ok rev => (r.1, .ok (reconstructContent rev))

/-- RevisionsPlugin.getCurrentDoc: a truthy (present and non-empty) content
field of the message is used verbatim; otherwise the live Concorde session
registry is consulted at the session-style path (identity resolver), an entry
meaning a live session whose document (with the or-empty guard of the source)
is that string; no entry models the source returning undefined. -/
def getCurrentDoc (st : ServerState) (path : String) (message : Option Message) :
    Option String :=
  match message with
  | some m =>
    match m.content with
    | some c => if c = "" then st.sessions path else some c
    | none => st.sessions path
  | none => st.sessions path

/-- RevisionsPlugin.enqueueDoc: append the (user, message) pair unless some
queued entry already has the same path. -/
def enqueueDoc (st : ServerState) (user : Option User) (message : Message) :
    ServerState :=
  if st.docQueue.any (fun doc => doc.2.path = message.path) then st
  else { st with docQueue := st.docQueue ++ [(user, message)] }

/-- RevisionsPlugin.saveToDisk: fail if the path is falsy or has no cached
history, or if the revision file does not already exist; otherwise overwrite
the revision file with the serialization of the cached history (the write
itself may fail). -/
def saveToDisk (st : ServerState) (path : String) (io : Fio) :
    ServerState × Except RevError (String × RevObj) :=
  if path = "" then (st, .error (.noPathOrHistory path))
  else
    match st.revisions path with
    | none => (st, .error (.noPathOrHistory path))
    | some rev =>
      match st.disk (revPath path) with
      | none => (st, .error (.backupMissing path))
      | some _ =>
        if !io.writeBackup then (st, .error (.writeBackupFailed path))
        else ({ st with disk := upd st.disk (revPath path) rev },
              .ok (revPath path, rev))

/-- The document pushPatch records: the JavaScript disjunction
currentDoc-or-getCurrentDoc(path), under which an absent or empty currentDoc
falls back to the session registry (getCurrentDoc called with no message). -/
def pushDoc (st : ServerState) (path : String) (currentDoc : Option String) :
    Option String :=
  match currentDoc with
  | some c => if c = "" then getCurrentDoc st path none else some c
  | none => getCurrentDoc st path none

/-- RevisionsPlugin.pushPatch: fetch the history; on failure wrap the error
and broadcast nothing.  On success set lastContent to the pushDoc
disjunction, push the record, broadcast the mutated history, then save to
disk — the broadcast is emitted before the disk write is attempted.  The
middle component lists the broadcast history objects. -/
def pushPatch (st : ServerState) (path : String) (revision : RevisionRecord)
    (currentDoc : Option String) (io : Fio) :
    ServerState × List RevObj × Except RevError (String × RevObj) :=
  let r := getRevisions st path io
  match r.2 with
  | .error _ => (r.1, [], .error (.couldNotRetrieve path))
  | .ok revObj =>
    let newObj : RevObj :=
      { revObj with
          lastContent := pushDoc r.1 path currentDoc,
          revisions := revObj.revisions ++ [revision] }
    let st2 := { r.1 with revisions := upd r.1.revisions path newObj }
    let s := saveToDisk st2 path io
    (s.1, [newObj], s.2)

/-- RevisionsPlugin.saveRevision: push a precomputed client revision, passing
its (possibly absent) lastContent as the current document. -/
def saveRevision (st : ServerState) (path : String) (record : RevisionRecord)
    (recLastContent : Option String) (io : Fio) :
    ServerState × List RevObj × Except RevError (String × RevObj) :=
  pushPatch st path record recLastContent io

/-- RevisionsPlugin.saveRevisionFromMsg: resolve the current document, fetch
the previous content, fail if the current document could not be resolved,
otherwise diff, build the record (contributors only from the user email when
the message carries none) and push. -/
def saveRevisionFromMsg (st : ServerState) (user : Option User)
    (message : Message) (now : Nat) (io : Fio) :
    ServerState × List RevObj × Except RevError (String × RevObj) :=
  let path := message.path
  let currentDoc := getCurrentDoc st path (some message)
  let p := getPreviousRevisionContent st path io
  match p.2 with
  | .error e => (p.1, [], .error e)
  | .ok previousRev =>
    match currentDoc with
    | none => (p.1, [], .error (.contentUnavailable path))
    | some doc =>
      let contributors : Option (List String) :=
        if (message.contributors.getD []).isEmpty then
          match user with
          | some u => u.email.map (fun e => [e])
          | none => none
        else none
      let revision : RevisionRecord :=
        { ts := now, silentsave := message.silentsave,
          restoring := message.restoring,
          patch := patch_make previousRev doc,
          length := doc.length, contributors := contributors }
      pushPatch p.1 path revision (some doc) io

/-- RevisionsPlugin.purgeCache: replace the whole in-memory cache with an
empty one; the disk is untouched. -/
def purgeCache (st : ServerState) : ServerState :=
  { st with revisions := fun _ => none }

/-! Helper lemmas about the operations. -/

/-- A cache hit returns the cached object and leaves the state unchanged. -/
theorem getRevisions_of_cached (st : ServerState) (path : String) (io : Fio)
    (rev : RevObj) (h : st.revisions path = some rev) :
    getRevisions st path io = (st, .ok rev) := by
  unfold getRevisions
  rw [h]

/-- A successful getRevisions leaves the returned object cached at the path. -/
theorem getRevisions_caches (st : ServerState) (path : String) (io : Fio)
    (rev : RevObj) (h : (getRevisions st path io).2 = .ok rev) :
    (getRevisions st path io).1.revisions path = some rev := by
  unfold getRevisions at h ⊢
  cases hc : st.revisions path with
  | some r => simp [hc] at h ⊢; exact h
  | none =>
    simp only [hc] at h ⊢
    cases hw : st.workspaceDirOk with
    | false => simp [hw] at h
    | true =>
      simp only [hw, Bool.not_true, Bool.false_eq_true, if_false] at h ⊢
      cases hd : st.disk (revPath path) with
      | some data =>
        simp only [hd] at h ⊢
        cases hr : io.readRevFile <;> simp [hr] at h ⊢
        cases hp : io.parseOk <;> simp [hp] at h ⊢
        simp [upd, ← h]
      | none =>
        simp only [hd] at h ⊢
        cases ho : st.origFiles path with
        | none => simp [ho] at h
        | some content =>
          simp only [ho] at h ⊢
          cases hro : io.readOrigFile <;> simp [hro] at h ⊢
          cases hwr : io.writeRevFile <;> simp [hwr] at h ⊢
          simp [upd, ← h]

/-- The state component of getPreviousRevisionContent is the one getRevisions
returned. -/
theorem getPreviousRevisionContent_fst (st : ServerState) (path : String)
    (io : Fio) :
    (getPreviousRevisionContent st path io).1 = (getRevisions st path io).1 := by
  simp only [getPreviousRevisionContent]
  cases hg : (getRevisions st path io).2 <;> simp [hg]

/-- A successful reconstruction means getRevisions succeeded on some object. -/
theorem getPreviousRevisionContent_ok (st : ServerState) (path : String)
    (io : Fio) (prev : String)
    (h : (getPreviousRevisionContent st path io).2 = .ok prev) :
    ∃ rev, (getRevisions st path io).2 = .ok rev := by
  simp only [getPreviousRevisionContent] at h
  cases hg : (getRevisions st path io).2 with
  | error e => rw [hg] at h; simp at h
  | ok rev => exact ⟨rev, rfl⟩

/-- saveToDisk never changes the in-memory cache. -/
theorem saveToDisk_revisions (st : ServerState) (path : String) (io : Fio) :
    (saveToDisk st path io).1.revisions = st.revisions := by
  unfold saveToDisk
  by_cases hp : path = ""
  · simp [hp]
  · simp only [if_neg hp]
    cases st.revisions path with
    | none => rfl
    | some rev =>
      cases st.disk (revPath path) with
      | none => rfl
      | some d => cases io.writeBackup <;> rfl

/-! Claim C1: reconstruction versus plain sequential patch application. -/

/-- A record whose patch maps every text to the empty string. -/
def recToEmpty : RevisionRecord :=
  { ts := 1, silentsave := none, restoring := none,
    patch := fun _ => "", length := 0, contributors := none }

/-- A state whose cache holds, for path "doc", a history with one record
whose patch erases the whole content. -/
def stErase : ServerState :=
  { revisions := fun p =>
      if p = "doc" then
        some { originalContent := "O", revisions := [recToEmpty],
               lastContent := none }
      else none,
    docQueue := [], disk := fun _ => none, origFiles := fun _ => none,
    sessions := fun _ => none, workspaceDirOk := true }

/-- C1 counterexample: for a cached history with originalContent "O" and a
single record whose patch yields the empty string, sequentially applying the
patches gives "", but getPreviousRevisionContent returns "O" — not the result
of the sequential application, refuting the claim as stated. -/
theorem C1_cex :
    applyPatches [recToEmpty] "O" = "" ∧
    (getPreviousRevisionContent stErase "doc" ioOk).2 = .ok "O" ∧
    ("O" : String) ≠ "" :=
  ⟨rfl, rfl, by decide⟩

/-- C1 (amended): for a history successfully retrieved for a path,
getPreviousRevisionContent returns the string obtained by applying the
patch of each record in order starting from originalContent, except that when that
application yields the empty string the result falls back to
originalContent. -/
theorem C1_reconstruction_fold (st : ServerState) (path : String) (io : Fio)
    (rev : RevObj) (h : (getRevisions st path io).2 = .ok rev) :
    (getPreviousRevisionContent st path io).2 =
      .ok (if applyPatches rev.revisions rev.originalContent = ""
           then rev.originalContent
           else applyPatches rev.revisions rev.originalContent) := by
  simp only [getPreviousRevisionContent, reconstructContent, h]

/-- A record whose patch extends "ab" to "abc". -/
def recGrow : RevisionRecord :=
  { ts := 3, silentsave := none, restoring := none,
    patch := fun s => if s = "ab" then "abc" else s,
    length := 3, contributors := none }

/-- A state whose cache holds, for path "a.txt", a history with base "ab" and
one growing record. -/
def stGrow : ServerState :=
  { revisions := fun p =>
      if p = "a.txt" then
        some { originalContent := "ab", revisions := [recGrow],
               lastContent := none }
      else none,
    docQueue := [], disk := fun _ => none, origFiles := fun _ => none,
    sessions := fun _ => none, workspaceDirOk := true }

/-- The history object stGrow caches for "a.txt". -/
def revGrow : RevObj :=
  { originalContent := "ab", revisions := [recGrow], lastContent := none }

/-- C1 witness: the amended reconstruction statement at a concrete cached
history. -/
theorem C1_reconstruction_fold_witness :
    (getPreviousRevisionContent stGrow "a.txt" ioOk).2 =
      .ok (if applyPatches revGrow.revisions revGrow.originalContent = ""
           then revGrow.originalContent
           else applyPatches revGrow.revisions revGrow.originalContent) :=
  C1_reconstruction_fold stGrow "a.txt" ioOk revGrow rfl

/-! Claim C2: whether reconstruction consults the cached lastContent. -/

/-- A record whose patch maps every text to "P". -/
def recToP : RevisionRecord :=
  { ts := 1, silentsave := none, restoring := none,
    patch := fun _ => "P", length := 1, contributors := none }

/-- A history carrying a present lastContent that differs from what its
patches produce. -/
def revCached : RevObj :=
  { originalContent := "O", revisions := [recToP], lastContent := some "CACHED" }

/-- A state whose cache holds revCached for path "doc". -/
def stCached : ServerState :=
  { revisions := fun p => if p = "doc" then some revCached else none,
    docQueue := [], disk := fun _ => none, origFiles := fun _ => none,
    sessions := fun _ => none, workspaceDirOk := true }

/-- C2 counterexample: a cached history with lastContent present ("CACHED")
still has its whole patch sequence applied: getPreviousRevisionContent
returns "P", not the cached lastContent, refuting the claim as stated. -/
theorem C2_cex :
    revCached.lastContent = some "CACHED" ∧
    (getPreviousRevisionContent stCached "doc" ioOk).2 = .ok "P" ∧
    ("P" : String) ≠ "CACHED" :=
  ⟨rfl, rfl, by decide⟩

/-- C2 (amended): getPreviousRevisionContent never consults lastContent — for
any successfully retrieved history it always recomputes by applying the
patch of every record to originalContent (with the empty-result fallback), the result
is invariant under changing lastContent, and an empty record sequence yields
originalContent. -/
theorem C2_reconstruct_ignores_lastContent (st : ServerState) (path : String)
    (io : Fio) (rev : RevObj) (h : (getRevisions st path io).2 = .ok rev) :
    (getPreviousRevisionContent st path io).2 = .ok (reconstructContent rev) ∧
    (∀ lc : Option String,
      reconstructContent { rev with lastContent := lc } = reconstructContent rev) ∧
    (rev.revisions = [] →
      (getPreviousRevisionContent st path io).2 = .ok rev.originalContent) := by
  refine ⟨?_, fun lc => rfl, ?_⟩
  · simp only [getPreviousRevisionContent, h]
  · intro he
    simp only [getPreviousRevisionContent, h, reconstructContent, he,
      applyPatches, List.foldl_nil, ite_self]

/-- C2 witness: the amended statement at a concrete cached history. -/
theorem C2_reconstruct_ignores_lastContent_witness :
    (getPreviousRevisionContent stCached "doc" ioOk).2 =
      .ok (reconstructContent revCached) ∧
    (∀ lc : Option String,
      reconstructContent { revCached with lastContent := lc } =
        reconstructContent revCached) ∧
    (revCached.revisions = [] →
      (getPreviousRevisionContent stCached "doc" ioOk).2 =
        .ok revCached.originalContent) :=
  C2_reconstruct_ignores_lastContent stCached "doc" ioOk revCached rfl

/-! Claim C9: the falsy fallback of reconstruction. -/

/-- C9: when the full patch application over originalContent yields the empty
string and originalContent is non-empty, getPreviousRevisionContent returns
originalContent rather than the empty string. -/
theorem C9_falsy_fallback (st : ServerState) (path : String) (io : Fio)
    (rev : RevObj) (h : (getRevisions st path io).2 = .ok rev)
    (h0 : applyPatches rev.revisions rev.originalContent = "")
    (hne : rev.originalContent ≠ "") :
    (getPreviousRevisionContent st path io).2 = .ok rev.originalContent ∧
    rev.originalContent ≠ "" := by
  refine ⟨?_, hne⟩
  simp only [getPreviousRevisionContent, h, reconstructContent, h0, if_pos]

/-- The history object stErase caches for "doc". -/
def revErase : RevObj :=
  { originalContent := "O", revisions := [recToEmpty], lastContent := none }

/-- C9 witness: the fallback at a concrete history whose single patch erases
the content. -/
theorem C9_falsy_fallback_witness :
    (getPreviousRevisionContent stErase "doc" ioOk).2 =
      .ok revErase.originalContent ∧
    revErase.originalContent ≠ "" :=
  C9_falsy_fallback stErase "doc" ioOk revErase rfl rfl (by decide)

/-! Claim C4: queue deduplication. -/

/-- C4: starting from an empty queue, enqueueing two requests with the same
path keeps exactly the earliest one; enqueueing requests for two distinct
paths keeps both in order. -/
theorem C4_enqueue_dedup (st : ServerState) (u1 u2 : Option User)
    (m1 m2 : Message) (hq : st.docQueue = []) :
    (m2.path = m1.path →
      (enqueueDoc (enqueueDoc st u1 m1) u2 m2).docQueue = [(u1, m1)]) ∧
    (m2.path ≠ m1.path →
      (enqueueDoc (enqueueDoc st u1 m1) u2 m2).docQueue =
        [(u1, m1), (u2, m2)]) := by
  constructor
  · intro hp
    simp [enqueueDoc, hq, hp]
  · intro hp
    have hp2 : ¬m1.path = m2.path := fun h => hp h.symm
    simp [enqueueDoc, hq, hp2]

/-- A message for path "a" with no optional fields. -/
def msgA : Message :=
  { path := "a", content := none, silentsave := none, restoring := none,
    contributors := none }

/-- A second message for path "a", carrying content. -/
def msgA2 : Message :=
  { path := "a", content := some "x", silentsave := none, restoring := none,
    contributors := none }

/-- A state with an empty queue and nothing else. -/
def stEmptyQueue : ServerState :=
  { revisions := fun _ => none, docQueue := [], disk := fun _ => none,
    origFiles := fun _ => none, sessions := fun _ => none,
    workspaceDirOk := true }

/-- C4 witness: the dedup statement at two concrete same-path messages over
the empty queue. -/
theorem C4_enqueue_dedup_witness :
    (msgA2.path = msgA.path →
      (enqueueDoc (enqueueDoc stEmptyQueue none msgA) none msgA2).docQueue =
        [(none, msgA)]) ∧
    (msgA2.path ≠ msgA.path →
      (enqueueDoc (enqueueDoc stEmptyQueue none msgA) none msgA2).docQueue =
        [(none, msgA), (none, msgA2)]) :=
  C4_enqueue_dedup stEmptyQueue none none msgA msgA2 rfl

/-! Claim C5: first-access creation of a history. -/

/-- C5: for a path with no cached history and no on-disk revision file, a
successful getRevisions reads the original content x, returns the initial
history with originalContent x and no records, and both writes it to the
revision file and caches it; if reading the original file or writing the
revision file fails, the callback errors and the state — cache included — is
unchanged. -/
theorem C5_create_initial (st : ServerState) (path x : String) (io : Fio)
    (hc : st.revisions path = none) (hw : st.workspaceDirOk = true)
    (hd : st.disk (revPath path) = none) (ho : st.origFiles path = some x)
    (hro : io.readOrigFile = true) (hwr : io.writeRevFile = true) :
    (getRevisions st path io).2 =
      .ok { originalContent := x, revisions := [], lastContent := none } ∧
    (getRevisions st path io).1.disk (revPath path) =
      some { originalContent := x, revisions := [], lastContent := none } ∧
    (getRevisions st path io).1.revisions path =
      some { originalContent := x, revisions := [], lastContent := none } ∧
    (∀ io2 : Fio, io2.readOrigFile = false →
      (getRevisions st path io2).2 = .error (.ioReadOrig path) ∧
      (getRevisions st path io2).1 = st) ∧
    (∀ io2 : Fio, io2.readOrigFile = true → io2.writeRevFile = false →
      (getRevisions st path io2).2 = .error (.ioWriteRev path) ∧
      (getRevisions st path io2).1 = st) := by
  refine ⟨?_, ?_, ?_, ?_, ?_⟩
  · simp [getRevisions, hc, hw, hd, ho, hro, hwr]
  · simp [getRevisions, hc, hw, hd, ho, hro, hwr, upd]
  · simp [getRevisions, hc, hw, hd, ho, hro, hwr, upd]
  · intro io2 h2
    constructor <;> simp [getRevisions, hc, hw, hd, ho, h2]
  · intro io2 h2 h3
    constructor <;> simp [getRevisions, hc, hw, hd, ho, h2, h3]

/-- A state with an original file "X" at path "f", an empty cache and an
empty disk. -/
def stFreshX : ServerState :=
  { revisions := fun _ => none, docQueue := [], disk := fun _ => none,
    origFiles := fun p => if p = "f" then some "X" else none,
    sessions := fun _ => none, workspaceDirOk := true }

/-- C5 witness: first access for path "f" with original content "X" creates,
persists and caches the initial history, and the failure branches error with
an unchanged state. -/
theorem C5_create_initial_witness :
    (getRevisions stFreshX "f" ioOk).2 =
      .ok { originalContent := "X", revisions := [], lastContent := none } ∧
    (getRevisions stFreshX "f" ioOk).1.disk (revPath "f") =
      some { originalContent := "X", revisions := [], lastContent := none } ∧
    (getRevisions stFreshX "f" ioOk).1.revisions "f" =
      some { originalContent := "X", revisions := [], lastContent := none } ∧
    (∀ io2 : Fio, io2.readOrigFile = false →
      (getRevisions stFreshX "f" io2).2 = .error (.ioReadOrig "f") ∧
      (getRevisions stFreshX "f" io2).1 = stFreshX) ∧
    (∀ io2 : Fio, io2.readOrigFile = true → io2.writeRevFile = false →
      (getRevisions stFreshX "f" io2).2 = .error (.ioWriteRev "f") ∧
      (getRevisions stFreshX "f" io2).1 = stFreshX) :=
  C5_create_initial stFreshX "f" "X" ioOk rfl rfl rfl rfl rfl rfl

/-! Claim C7: purge isolation. -/

/-- C7: purging empties the whole cache and leaves the disk untouched, and
for a path whose cached history had been persisted to disk, reconstruction
after the purge (reload from disk) returns exactly the content reconstructed
from the pre-purge cached history. -/
theorem C7_purge_reload (st : ServerState) (path : String) (rev : RevObj)
    (io : Fio) (hc : st.revisions path = some rev)
    (hd : st.disk (revPath path) = some rev) (hw : st.workspaceDirOk = true)
    (hr : io.readRevFile = true) (hp : io.parseOk = true) :
    (purgeCache st).revisions path = none ∧
    (purgeCache st).disk = st.disk ∧
    (getPreviousRevisionContent st path io).2 = .ok (reconstructContent rev) ∧
    (getPreviousRevisionContent (purgeCache st) path io).2 =
      .ok (reconstructContent rev) := by
  refine ⟨rfl, rfl, ?_, ?_⟩
  · simp only [getPreviousRevisionContent, getRevisions, hc]
  · simp [getPreviousRevisionContent, getRevisions, purgeCache, hd, hw, hr, hp]

/-- A state whose cache and disk both hold revGrow for path "a.txt". -/
def stGrowSynced : ServerState :=
  { revisions := fun p => if p = "a.txt" then some revGrow else none,
    docQueue := [],
    disk := fun p => if p = revPath "a.txt" then some revGrow else none,
    origFiles := fun _ => none, sessions := fun _ => none,
    workspaceDirOk := true }

/-- C7 witness: purge isolation at a concrete synced state. -/
theorem C7_purge_reload_witness :
    (purgeCache stGrowSynced).revisions "a.txt" = none ∧
    (purgeCache stGrowSynced).disk = stGrowSynced.disk ∧
    (getPreviousRevisionContent stGrowSynced "a.txt" ioOk).2 =
      .ok (reconstructContent revGrow) ∧
    (getPreviousRevisionContent (purgeCache stGrowSynced) "a.txt" ioOk).2 =
      .ok (reconstructContent revGrow) :=
  C7_purge_reload stGrowSynced "a.txt" revGrow ioOk rfl rfl rfl rfl rfl

/-! Claim C6: append monotonicity. -/

/-- C6 (amended): whenever pushPatch retrieves a history, it caches an object
with exactly one record appended after the unchanged previous records, and
its lastContent is the pushDoc disjunction — equal to the appended content
whenever that content is a non-empty string (an empty or absent content falls
back to the session registry instead). -/
theorem C6_append (st : ServerState) (path : String) (r : RevisionRecord)
    (cd : Option String) (io : Fio) (rev : RevObj)
    (h : (getRevisions st path io).2 = .ok rev) :
    (pushPatch st path r cd io).1.revisions path =
      some { originalContent := rev.originalContent,
             revisions := rev.revisions ++ [r],
             lastContent := pushDoc (getRevisions st path io).1 path cd } ∧
    (rev.revisions ++ [r]).length = rev.revisions.length + 1 ∧
    (∀ c : String, cd = some c → c ≠ "" →
      pushDoc (getRevisions st path io).1 path cd = some c) := by
  refine ⟨?_, by simp, ?_⟩
  · simp only [pushPatch, h]
    rw [saveToDisk_revisions]
    simp [upd]
  · intro c hcd hne
    subst hcd
    simp [pushDoc, hne]

/-- A record carrying the patch growing "abc" to "abcd". -/
def recGrow2 : RevisionRecord :=
  { ts := 5, silentsave := none, restoring := none,
    patch := fun s => if s = "abc" then "abcd" else s,
    length := 4, contributors := none }

/-- The history cached and persisted for path "b.txt": base "abc", no
records. -/
def revBaseAbc : RevObj :=
  { originalContent := "abc", revisions := [], lastContent := none }

/-- A state whose cache and disk both hold revBaseAbc for path "b.txt". -/
def stBaseAbc : ServerState :=
  { revisions := fun p => if p = "b.txt" then some revBaseAbc else none,
    docQueue := [],
    disk := fun p => if p = revPath "b.txt" then some revBaseAbc else none,
    origFiles := fun _ => none, sessions := fun _ => none,
    workspaceDirOk := true }

/-- C6 witness: appending content "abcd" to the concrete history grows the
record list by one and sets lastContent to "abcd". -/
theorem C6_append_witness :
    (pushPatch stBaseAbc "b.txt" recGrow2 (some "abcd") ioOk).1.revisions "b.txt" =
      some { originalContent := revBaseAbc.originalContent,
             revisions := revBaseAbc.revisions ++ [recGrow2],
             lastContent :=
               pushDoc (getRevisions stBaseAbc "b.txt" ioOk).1 "b.txt"
                 (some "abcd") } ∧
    (revBaseAbc.revisions ++ [recGrow2]).length =
      revBaseAbc.revisions.length + 1 ∧
    (∀ c : String, (some "abcd" : Option String) = some c → c ≠ "" →
      pushDoc (getRevisions stBaseAbc "b.txt" ioOk).1 "b.txt" (some "abcd") =
        some c) :=
  C6_append stBaseAbc "b.txt" recGrow2 (some "abcd") ioOk revBaseAbc rfl

/-- A state with history revBaseO cached and persisted for path "doc" and no
live session. -/
def revBaseO : RevObj :=
  { originalContent := "O", revisions := [], lastContent := none }

/-- A state whose cache and disk both hold revBaseO for "doc", with no live
sessions. -/
def stBaseO : ServerState :=
  { revisions := fun p => if p = "doc" then some revBaseO else none,
    docQueue := [],
    disk := fun p => if p = revPath "doc" then some revBaseO else none,
    origFiles := fun _ => none, sessions := fun _ => none,
    workspaceDirOk := true }

/-- C6 counterexample: pushing with appended content equal to the empty
string succeeds, but the stored lastContent is absent (the session fallback
returned nothing), not the appended empty string — refuting the claim that a
successful append always sets lastContent to the appended content. -/
theorem C6_cex :
    (pushPatch stBaseO "doc" recToEmpty (some "") ioOk).2.2 =
      .ok (revPath "doc",
        { originalContent := "O", revisions := [recToEmpty],
          lastContent := none }) ∧
    (pushPatch stBaseO "doc" recToEmpty (some "") ioOk).1.revisions "doc" =
      some { originalContent := "O", revisions := [recToEmpty],
             lastContent := none } ∧
    (none : Option String) ≠ some "" :=
  ⟨rfl, rfl, by decide⟩

/-! Claim C3: broadcasts versus save failures. -/

/-- C3 (amended): pushPatch broadcasts nothing exactly when the history
retrieval fails, and saveRevisionFromMsg broadcasts nothing exactly when the
previous-content reconstruction fails or the current document cannot be
resolved; a failure of the disk persist alone does not suppress the
broadcast. -/
theorem C3_broadcast_iff (st : ServerState) (path : String)
    (r : RevisionRecord) (cd : Option String) (io : Fio) :
    ((pushPatch st path r cd io).2.1 = [] ↔
      ∃ e, (getRevisions st path io).2 = .error e) ∧
    (∀ (u : Option User) (msg : Message) (now : Nat),
      (saveRevisionFromMsg st u msg now io).2.1 = [] ↔
        ((∃ e, (getPreviousRevisionContent st msg.path io).2 = .error e) ∨
          getCurrentDoc st msg.path (some msg) = none)) := by
  constructor
  · cases hg : (getRevisions st path io).2 with
    | error e => simp [pushPatch, hg]
    | ok rev => simp [pushPatch, hg]
  · intro u msg now
    cases hp : (getPreviousRevisionContent st msg.path io).2 with
    | error e => simp [saveRevisionFromMsg, hp]
    | ok prev =>
      cases hcd : getCurrentDoc st msg.path (some msg) with
      | none => simp [saveRevisionFromMsg, hp, hcd]
      | some doc =>
        obtain ⟨rev, hg⟩ := getPreviousRevisionContent_ok st msg.path io prev hp
        have hcache :
            (getPreviousRevisionContent st msg.path io).1.revisions msg.path =
              some rev := by
          rw [getPreviousRevisionContent_fst]
          exact getRevisions_caches _ _ _ _ hg
        have hg2 := getRevisions_of_cached
          (getPreviousRevisionContent st msg.path io).1 msg.path io rev hcache
        simp [saveRevisionFromMsg, hp, hcd, pushPatch, hg2]

/-- A state with history revBaseO cached for "doc" but no revision file on
disk, so the disk persist must fail. -/
def stNoBackup : ServerState :=
  { revisions := fun p => if p = "doc" then some revBaseO else none,
    docQueue := [], disk := fun _ => none, origFiles := fun _ => none,
    sessions := fun _ => none, workspaceDirOk := true }

/-- A record carrying the patch mapping everything to "new". -/
def recToNew : RevisionRecord :=
  { ts := 7, silentsave := none, restoring := none,
    patch := fun _ => "new", length := 3, contributors := none }

/-- C3 counterexample: with the history cached but its revision file missing,
the disk persist of pushPatch fails, yet the updated history is still
broadcast — refuting the claim that a failed save yields no broadcast. -/
theorem C3_cex :
    (pushPatch stNoBackup "doc" recToNew (some "new") ioOk).2.1 =
      [{ originalContent := "O", revisions := [recToNew],
         lastContent := some "new" }] ∧
    (pushPatch stNoBackup "doc" recToNew (some "new") ioOk).2.2 =
      .error (.backupMissing "doc") :=
  ⟨rfl, rfl⟩

/-! Claim C8: the failure conditions of saveToDisk. -/

/-- C8 (amended): saveToDisk fails exactly when the path is empty, there is
no cached history for it, the target revision file does not already exist, or
the file write itself fails; on success it overwrites the revision file with
the cached history, and every failure leaves the state unchanged. -/
theorem C8_persist_conditions (st : ServerState) (path : String) (io : Fio) :
    ((∃ e, (saveToDisk st path io).2 = .error e) ↔
      (path = "" ∨ st.revisions path = none ∨
        st.disk (revPath path) = none ∨ io.writeBackup = false)) ∧
    (∀ rev : RevObj, path ≠ "" → st.revisions path = some rev →
      st.disk (revPath path) ≠ none → io.writeBackup = true →
      (saveToDisk st path io).2 = .ok (revPath path, rev) ∧
      (saveToDisk st path io).1.disk (revPath path) = some rev) ∧
    (∀ e : RevError, (saveToDisk st path io).2 = .error e →
      (saveToDisk st path io).1 = st) := by
  by_cases hp : path = ""
  · refine ⟨by simp [saveToDisk, hp], ?_, by simp [saveToDisk, hp]⟩
    intro rev hne
    exact absurd hp hne
  · cases hc : st.revisions path with
    | none =>
      refine ⟨by simp [saveToDisk, hp, hc], ?_, by simp [saveToDisk, hp, hc]⟩
      intro rev _ hc2
      simp at hc2
    | some rev =>
      cases hd : st.disk (revPath path) with
      | none =>
        refine ⟨by simp [saveToDisk, hp, hc, hd], ?_,
          by simp [saveToDisk, hp, hc, hd]⟩
        intro rev2 _ _ hd2
        exact absurd rfl hd2
      | some d =>
        cases hwb : io.writeBackup with
        | false =>
          refine ⟨by simp [saveToDisk, hp, hc, hd, hwb], ?_,
            by simp [saveToDisk, hp, hc, hd, hwb]⟩
          intro rev2 _ _ _ hwb2
          simp at hwb2
        | true =>
          refine ⟨by simp [saveToDisk, hp, hc, hd, hwb], ?_,
            by simp [saveToDisk, hp, hc, hd, hwb]⟩
          intro rev2 _ hc2 _ _
          injection hc2 with hrev
          subst hrev
          constructor
          · simp [saveToDisk, hp, hc, hd, hwb]
          · simp [saveToDisk, hp, hc, hd, hwb, upd]

/-- A failure oracle where only the final backup write fails. -/
def ioNoWrite : Fio := ⟨true, true, true, true, false⟩

/-- C8 counterexample: for a non-empty path with a cached history and an
existing revision file — every condition the claim allows for failure being
false — saveToDisk still fails when the underlying write fails, refuting the
exactly-when characterization. -/
theorem C8_cex :
    ("doc" : String) ≠ "" ∧
    stBaseO.revisions "doc" = some revBaseO ∧
    stBaseO.disk (revPath "doc") = some revBaseO ∧
    (saveToDisk stBaseO "doc" ioNoWrite).2 =
      .error (.writeBackupFailed "doc") :=
  ⟨by decide, rfl, rfl, rfl⟩

/-! Claim C10: explicit empty content is treated as absent. -/

/-- C10: a message whose explicit content is the empty string is treated as
having no content: getCurrentDoc falls through to the session registry, and
with no live session it resolves nothing, so saveRevisionFromMsg errors (with
the content-unavailable error whenever the previous content was
reconstructed) and never succeeds. -/
theorem C10_empty_content_never_saves (st : ServerState) (u : Option User)
    (msg : Message) (now : Nat) (io : Fio)
    (hc : msg.content = some "") (hs : st.sessions msg.path = none) :
    getCurrentDoc st msg.path (some msg) = none ∧
    (∀ prev : String,
      (getPreviousRevisionContent st msg.path io).2 = .ok prev →
      (saveRevisionFromMsg st u msg now io).2.2 =
        .error (.contentUnavailable msg.path) ∧
      (saveRevisionFromMsg st u msg now io).2.1 = []) ∧
    (∀ v : String × RevObj,
      (saveRevisionFromMsg st u msg now io).2.2 ≠ .ok v) := by
  have hcd : getCurrentDoc st msg.path (some msg) = none := by
    simp [getCurrentDoc, hc, hs]
  refine ⟨hcd, ?_, ?_⟩
  · intro prev hp
    constructor <;> simp [saveRevisionFromMsg, hp, hcd]
  · intro v
    cases hp : (getPreviousRevisionContent st msg.path io).2 with
    | error e => simp [saveRevisionFromMsg, hp]
    | ok prev => simp [saveRevisionFromMsg, hp, hcd]

/-- A message for path "doc" whose explicit content is the empty string. -/
def msgEmptyContent : Message :=
  { path := "doc", content := some "", silentsave := none, restoring := none,
    contributors := none }

/-- C10 witness: over the concrete state holding a history for "doc" and no
live session, the empty-content message resolves no current document and the
save fails with the content-unavailable error. -/
theorem C10_empty_content_never_saves_witness :
    getCurrentDoc stErase msgEmptyContent.path (some msgEmptyContent) = none ∧
    (∀ prev : String,
      (getPreviousRevisionContent stErase msgEmptyContent.path ioOk).2 =
        .ok prev →
      (saveRevisionFromMsg stErase none msgEmptyContent 9 ioOk).2.2 =
        .error (.contentUnavailable msgEmptyContent.path) ∧
      (saveRevisionFromMsg stErase none msgEmptyContent 9 ioOk).2.1 = []) ∧
    (∀ v : String × RevObj,
      (saveRevisionFromMsg stErase none msgEmptyContent 9 ioOk).2.2 ≠ .ok v) :=
  C10_empty_content_never_saves stErase none msgEmptyContent 9 ioOk rfl rfl

end Revisions
